import Mathlib

/-!
# Verification of `tools/frameConversion.py` (starlift)

Shallow embedding of the frame-conversion module of the starlift repository,
together with proofs and refutations of the specified properties.

Conventions of the embedding:

* Python floats are modelled as real numbers (`ℝ`).
* A numpy 1-D length-3 array is `Vec3 := Fin 3 → ℝ`; an n×3 array is a
  `List Vec3` of its rows.
* A Python function that can raise is modelled with `Option`/`Except`.
* IEEE NaN poisoning matters only in `body2geo` (division by the norm of a
  cross product that may be zero); there the affected values are modelled in
  `PR := Option ℝ`, `none` standing for NaN, with division by zero producing
  `none` (all divisions in that code path have zero numerators whenever the
  divisor is zero, so the IEEE result there is exactly NaN).
* The external collaborators (`jplephem` kernel lookup `kernel[0,3].compute`,
  and the astropy ICRS→GCRS transform wrapped by `icrs2gcrs`) are abstracted
  as function parameters of the embedding.
-/

noncomputable section

open Real (cos sin)
open Matrix (transpose)
open scoped Matrix

/-- Distance unit of the Earth–Moon CR3BP system, km (module-level constant
noted at the top of `frameConversion.py`). -/
def DU : ℝ := 384400

/-- Time unit of the Earth–Moon CR3BP system, days. -/
def TU : ℝ := 27.321582

/-- Offset between Modified Julian Date and Julian Date, used because
`body2geo` queries the ephemeris kernel at `currentTime.jd` while all other
times in the module are MJD values. -/
def mjd2jd : ℝ := 2400000.5

/-- Modelled from the spec: `convertPos_to_canonical` (the unit-converter
component is not part of `frameConversion.py`); §4.2 gives
`toCanonicalDistance(x) = x / DU`. -/
def convertPos_to_canonical (x : ℝ) : ℝ := x / DU

/-- Modelled from the spec: `convertTime_to_canonical` (the unit-converter
component is not part of `frameConversion.py`); §4.2 gives
`toCanonicalTime(dt) = (dt / TU) * 2π`. -/
def convertTime_to_canonical (dt : ℝ) : ℝ := dt / TU * (2 * Real.pi)

/-- A numpy 1-D array of length 3 (a position or velocity vector). -/
abbrev Vec3 := Fin 3 → ℝ

/-- `np.dot` of a 3×3 matrix with a length-3 vector, written out the way the
floating-point sum is accumulated. -/
def np_dot (A : Matrix (Fin 3) (Fin 3) ℝ) (v : Vec3) : Vec3 :=
  fun i => A i 0 * v 0 + A i 1 * v 1 + A i 2 * v 2

/-- `np.cross` of two length-3 vectors. -/
def cross3 (a b : Vec3) : Vec3 :=
  ![a 1 * b 2 - a 2 * b 1, a 2 * b 0 - a 0 * b 2, a 0 * b 1 - a 1 * b 0]

/-- `np.linalg.norm` of a length-3 vector. -/
def norm3 (v : Vec3) : ℝ := Real.sqrt (v 0 ^ 2 + v 1 ^ 2 + v 2 ^ 2)

/-- `rot(th, axis)` of `frameConversion.py`: the elementary rotation matrix
about principal axis 1, 2 or 3.  For any other axis value the local variable
`rot_th` is never assigned and the `return` raises `UnboundLocalError`, hence
the `Option` result. -/
def rot (th : ℝ) (axis : ℕ) : Option (Matrix (Fin 3) (Fin 3) ℝ) :=
  if axis = 1 then
    some !![1, 0, 0; 0, cos th, sin th; 0, -sin th, cos th]
  else if axis = 2 then
    some !![cos th, 0, -sin th; 0, 1, 0; sin th, 0, cos th]
  else if axis = 3 then
    some !![cos th, sin th, 0; -sin th, cos th, 0; 0, 0, 1]
  else
    none

/-- The value `rot(th, 3)` always returned at the module's internal call
sites, all of which pass the literal axis 3. -/
def rot3 (th : ℝ) : Matrix (Fin 3) (Fin 3) ℝ :=
  !![cos th, sin th, 0; -sin th, cos th, 0; 0, 0, 1]

theorem rot_axis3 (th : ℝ) : rot th 3 = some (rot3 th) := rfl

theorem rot_zero_three : rot 0 3 = some !![1, 0, 0; 0, 1, 0; 0, 0, 1] := by
  rw [rot_axis3]
  refine congrArg some ?_
  ext i j
  fin_cases i <;> fin_cases j <;> simp [rot3]

theorem np_dot_eq_mulVec (A : Matrix (Fin 3) (Fin 3) ℝ) (v : Vec3) :
    np_dot A v = A.mulVec v := by
  funext i
  simp [np_dot, Matrix.mulVec, Matrix.dotProduct, Fin.sum_univ_three]

/-- Claim C3: for every real angle `th`, `rot(th, 3)` is exactly the matrix
`[[cos th, sin th, 0], [-sin th, cos th, 0], [0, 0, 1]]` (the right-handed
coordinate-frame rotation about the z axis). -/
theorem c3_rot_axis3_matrix (th : ℝ) :
    rot th 3 = some !![cos th, sin th, 0; -sin th, cos th, 0; 0, 0, 1] := rfl

/-- Claim C4: for every angle `th` and axis `a ∈ {1,2,3}`, the matrix
`R = rot(th, a)` is orthonormal (`Rᵀ * R = 1`) and `Rᵀ = rot(-th, a)`. -/
theorem c4_rot_orthonormal (th : ℝ) (a : ℕ) (R : Matrix (Fin 3) (Fin 3) ℝ)
    (ha : a = 1 ∨ a = 2 ∨ a = 3) (hR : rot th a = some R) :
    Rᵀ * R = 1 ∧ rot (-th) a = some Rᵀ := by
  have hpyth : sin th * sin th + cos th * cos th = 1 := by
    have h := Real.sin_sq_add_cos_sq th
    nlinarith [h]
  rcases ha with h1 | h2 | h3
  · subst h1
    have e : rot th 1 =
        some !![1, 0, 0; 0, cos th, sin th; 0, -sin th, cos th] := rfl
    rw [e, Option.some.injEq] at hR
    subst hR
    have ht : (!![1, 0, 0; 0, cos th, sin th; 0, -sin th, cos th] :
          Matrix (Fin 3) (Fin 3) ℝ)ᵀ =
        !![1, 0, 0; 0, cos th, -sin th; 0, sin th, cos th] := by
      ext i j
      fin_cases i <;> fin_cases j <;> rfl
    constructor
    · rw [ht, Matrix.mul_fin_three, Matrix.one_fin_three]
      ext i j
      fin_cases i <;> fin_cases j <;> simp [Matrix.vecHead, Matrix.vecTail] <;>
        nlinarith [hpyth]
    · have e' : rot (-th) 1 =
          some !![1, 0, 0; 0, cos (-th), sin (-th); 0, -sin (-th), cos (-th)] :=
        rfl
      rw [e', ht]
      refine congrArg some ?_
      ext i j
      fin_cases i <;> fin_cases j <;> simp [Real.cos_neg, Real.sin_neg]
  · subst h2
    have e : rot th 2 =
        some !![cos th, 0, -sin th; 0, 1, 0; sin th, 0, cos th] := rfl
    rw [e, Option.some.injEq] at hR
    subst hR
    have ht : (!![cos th, 0, -sin th; 0, 1, 0; sin th, 0, cos th] :
          Matrix (Fin 3) (Fin 3) ℝ)ᵀ =
        !![cos th, 0, sin th; 0, 1, 0; -sin th, 0, cos th] := by
      ext i j
      fin_cases i <;> fin_cases j <;> rfl
    constructor
    · rw [ht, Matrix.mul_fin_three, Matrix.one_fin_three]
      ext i j
      fin_cases i <;> fin_cases j <;> simp [Matrix.vecHead, Matrix.vecTail] <;>
        nlinarith [hpyth]
    · have e' : rot (-th) 2 =
          some !![cos (-th), 0, -sin (-th); 0, 1, 0; sin (-th), 0, cos (-th)] :=
        rfl
      rw [e', ht]
      refine congrArg some ?_
      ext i j
      fin_cases i <;> fin_cases j <;> simp [Real.cos_neg, Real.sin_neg]
  · subst h3
    have e : rot th 3 =
        some !![cos th, sin th, 0; -sin th, cos th, 0; 0, 0, 1] := rfl
    rw [e, Option.some.injEq] at hR
    subst hR
    have ht : (!![cos th, sin th, 0; -sin th, cos th, 0; 0, 0, 1] :
          Matrix (Fin 3) (Fin 3) ℝ)ᵀ =
        !![cos th, -sin th, 0; sin th, cos th, 0; 0, 0, 1] := by
      ext i j
      fin_cases i <;> fin_cases j <;> rfl
    constructor
    · rw [ht, Matrix.mul_fin_three, Matrix.one_fin_three]
      ext i j
      fin_cases i <;> fin_cases j <;> simp [Matrix.vecHead, Matrix.vecTail] <;>
        nlinarith [hpyth]
    · have e' : rot (-th) 3 =
          some !![cos (-th), sin (-th), 0; -sin (-th), cos (-th), 0; 0, 0, 1] :=
        rfl
      rw [e', ht]
      refine congrArg some ?_
      ext i j
      fin_cases i <;> fin_cases j <;> simp [Real.cos_neg, Real.sin_neg]

/-- Witness for C4 at `th = 0`, `a = 3`. -/
theorem c4_rot_orthonormal_witness :
    ((3 : ℕ) = 1 ∨ (3 : ℕ) = 2 ∨ (3 : ℕ) = 3) ∧
      ((!![1, 0, 0; 0, 1, 0; 0, 0, 1] : Matrix (Fin 3) (Fin 3) ℝ)ᵀ *
          !![1, 0, 0; 0, 1, 0; 0, 0, 1] = 1 ∧
        rot (-0) 3 =
          some (!![1, 0, 0; 0, 1, 0; 0, 0, 1] : Matrix (Fin 3) (Fin 3) ℝ)ᵀ) :=
  ⟨Or.inr (Or.inr rfl),
    c4_rot_orthonormal 0 3 !![1, 0, 0; 0, 1, 0; 0, 0, 1]
      (Or.inr (Or.inr rfl)) rot_zero_three⟩

/-- The branch of `rot2inertV` taken when `rR.shape == (3,)` (a single
vector pair): `At = rot(t_norm, 3).T`; `drR = [-rR[1], rR[0], 0]`;
`vI = np.dot(At, vR) + np.dot(At, drR)`. -/
def rot2inertVSingle (rR vR : Vec3) (t_norm : ℝ) : Vec3 :=
  fun i =>
    np_dot (rot3 t_norm)ᵀ vR i + np_dot (rot3 t_norm)ᵀ ![-rR 1, rR 0, 0] i

/-- The batch (`else`) branch of `rot2inertV`: `for t in range(len(rR))`,
`At = rot(t_norm, 3).T`; `drR = [-rR[t,1], rR[t,0], 0]`;
`vI[t] = np.dot(At, vR[t]) + np.dot(At, drR)`.  Indexing `vR[t]` past the
end of `vR` raises `IndexError`, hence the `Option`. -/
def rot2inertVBatch : List Vec3 → List Vec3 → ℝ → Option (List Vec3)
  | [], _, _ => some []
  | rR :: rRs, vR :: vRs, t_norm =>
      Option.map
        (fun rest =>
          (fun i =>
            np_dot (rot3 t_norm)ᵀ vR i +
              np_dot (rot3 t_norm)ᵀ ![-rR 1, rR 0, 0] i) :: rest)
        (rot2inertVBatch rRs vRs t_norm)
  | _ :: _, [], _ => none

/-- One iteration of the loop in `inert2rotV`: `At = rot(t_norm[t], 3)`;
`vR[t] = np.dot(At, vI[t]) + [rR[t,1], -rR[t,0], 0]`. -/
def inert2rotVRow (th : ℝ) (rR vI : Vec3) : Vec3 :=
  fun i => np_dot (rot3 th) vI i + (![rR 1, -rR 0, 0] : Vec3) i

/-- The loop `for t in range(len(t_norm))` of `inert2rotV`.  It indexes
`rR[t]` and `vI[t]` for each `t`, so exhausting either array raises
`IndexError` (`none`), while rows of `rR`/`vI` beyond the length of
`t_norm` are silently ignored. -/
def inert2rotVLoop : List ℝ → List Vec3 → List Vec3 → Option (List Vec3)
  | [], _, _ => some []
  | th :: ths, r :: rs, v :: vs =>
      Option.map (fun rest => inert2rotVRow th r v :: rest)
        (inert2rotVLoop ths rs vs)
  | _ :: _, _, _ => none

/-- `inert2rotV(rR, vI, t_norm)`.  `Sum.inl` is a scalar `t_norm`
(`t_norm.size == 1`), which the function wraps into the one-element array
`np.array([t_norm])` before the loop; `Sum.inr` is a 1-D array of angles.
A 1-D array of length exactly 1 also satisfies `t_norm.size == 1` and gets
re-wrapped into a 2-D `(1,1)` array, after which `rot` is applied to a
length-1 array and the loop assembles a ragged `np.array` from length-1
arrays and scalars; that numpy corner yields no well-formed `(n,3)` result
and is modelled as an error (nothing proved below depends on that branch). -/
def inert2rotV (rR vI : List Vec3) (t_norm : ℝ ⊕ List ℝ) :
    Option (List Vec3) :=
  match t_norm with
  | Sum.inl x => inert2rotVLoop [x] rR vI
  | Sum.inr l => if l.length = 1 then none else inert2rotVLoop l rR vI

theorem inert2rotVLoop_eq (ts : List ℝ) (rs vs : List Vec3) :
    inert2rotVLoop ts rs vs =
      if ts.length ≤ min rs.length vs.length then
        some (List.zipWith (fun th p => inert2rotVRow th p.1 p.2) ts
          (rs.zip vs))
      else none := by
  induction ts generalizing rs vs with
  | nil => simp [inert2rotVLoop]
  | cons th ths ih =>
    cases rs with
    | nil =>
      rw [show inert2rotVLoop (th :: ths) [] vs = none from rfl,
        if_neg (by simp)]
    | cons r rs' =>
      cases vs with
      | nil =>
        rw [show inert2rotVLoop (th :: ths) (r :: rs') [] = none from rfl,
          if_neg (by simp)]
      | cons v vs' =>
        simp only [inert2rotVLoop, ih]
        rcases le_or_lt ths.length (min rs'.length vs'.length) with h | h
        · rw [if_pos h, if_pos (by simp only [List.length_cons]; omega)]
          simp [List.zip_cons_cons]
        · rw [if_neg (by omega), if_neg (by simp only [List.length_cons]; omega)]
          rfl

/-- Claim C5: for a single length-3 rotating-frame position `rR`, velocity
`vR` and angle `t_norm`, `rot2inertV` returns
`R.T @ vR + R.T @ [-rR_y, rR_x, 0]` where `R = rot(t_norm, 3)`. -/
theorem c5_rot2inertV_single_formula (rR vR : Vec3) (t : ℝ)
    (R : Matrix (Fin 3) (Fin 3) ℝ) (hR : rot t 3 = some R) :
    rot2inertVSingle rR vR t =
      Rᵀ.mulVec vR + Rᵀ.mulVec ![-rR 1, rR 0, 0] := by
  rw [rot_axis3, Option.some.injEq] at hR
  subst hR
  funext i
  simp [rot2inertVSingle, np_dot, Matrix.mulVec, Matrix.dotProduct,
    Fin.sum_univ_three, Pi.add_apply]

/-- Witness for C5 at `t_norm = 0`, `rR = (1,2,3)`, `vR = (4,5,6)`. -/
theorem c5_rot2inertV_single_formula_witness :
    rot 0 3 = some !![1, 0, 0; 0, 1, 0; 0, 0, 1] ∧
      rot2inertVSingle ![1, 2, 3] ![4, 5, 6] 0 =
        (!![1, 0, 0; 0, 1, 0; 0, 0, 1] : Matrix (Fin 3) (Fin 3) ℝ)ᵀ.mulVec
            ![4, 5, 6] +
          (!![1, 0, 0; 0, 1, 0; 0, 0, 1] : Matrix (Fin 3) (Fin 3) ℝ)ᵀ.mulVec
            ![-(![1, 2, 3] : Vec3) 1, (![1, 2, 3] : Vec3) 0, 0] :=
  ⟨rot_zero_three,
    c5_rot2inertV_single_formula ![1, 2, 3] ![4, 5, 6] 0 _ rot_zero_three⟩

/-- Claim C8: the batch branch of `rot2inertV` on N equal-length batches
agrees with mapping the single-pair branch over the zipped samples. -/
theorem c8_rot2inertV_batch_matches_single (rs vs : List Vec3) (t : ℝ)
    (h : rs.length = vs.length) :
    rot2inertVBatch rs vs t =
      some ((rs.zip vs).map fun p => rot2inertVSingle p.1 p.2 t) := by
  induction rs generalizing vs with
  | nil => simp [rot2inertVBatch]
  | cons r rs' ih =>
    cases vs with
    | nil => simp at h
    | cons v vs' =>
      have h' : rs'.length = vs'.length := by simpa using h
      simp only [rot2inertVBatch, ih vs' h', Option.map_some', List.zip_cons_cons,
        List.map_cons]
      rfl

/-- Witness for C8 on a one-sample batch at `t_norm = 0`. -/
theorem c8_rot2inertV_batch_matches_single_witness :
    ([![(1 : ℝ), 2, 3]] : List Vec3).length =
        ([![(4 : ℝ), 5, 6]] : List Vec3).length ∧
      rot2inertVBatch [![(1 : ℝ), 2, 3]] [![(4 : ℝ), 5, 6]] 0 =
        some ((([![(1 : ℝ), 2, 3]] : List Vec3).zip
            ([![(4 : ℝ), 5, 6]] : List Vec3)).map
          fun p => rot2inertVSingle p.1 p.2 0) :=
  ⟨rfl, c8_rot2inertV_batch_matches_single _ _ 0 rfl⟩

/-- Counterexample to claim C7: `inert2rotV` given a two-angle `t_norm` and
three-row `rR`/`vI` batches does not fail; it silently returns a two-row
result, truncating the batches. -/
theorem c7_counterexample_silent_truncation :
    Option.map List.length
      (inert2rotV [![(1 : ℝ), 0, 0], ![(0 : ℝ), 1, 0], ![(0 : ℝ), 0, 1]]
        [![(1 : ℝ), 0, 0], ![(0 : ℝ), 1, 0], ![(0 : ℝ), 0, 1]]
        (Sum.inr [0, 0])) = some 2 := rfl

/-- Claim C7 amended: `inert2rotV` performs no length validation at all.  A
1-D `t_norm` of length exactly 1 trips the `t_norm.size == 1` re-wrap
branch and fails (the loop then assembles a malformed ragged array).  Every
other 1-D `t_norm` drives the loop over `len(t_norm)` only: no longer than
both batches, the call succeeds and silently uses just the first
`len(t_norm)` rows of `rR`/`vI` (truncation, no error); strictly longer
than a batch, it raises an `IndexError` mid-loop, not a descriptive length
check. -/
theorem c7_amended_truncation (ts : List ℝ) (rs vs : List Vec3) :
    inert2rotV rs vs (Sum.inr ts) =
      if ts.length = 1 then none
      else if ts.length ≤ min rs.length vs.length then
        some (List.zipWith (fun th p => inert2rotVRow th p.1 p.2) ts
          (rs.zip vs))
      else none := by
  simp only [inert2rotV]
  by_cases h : ts.length = 1
  · rw [if_pos h, if_pos h]
  · rw [if_neg h, if_neg h]
    exact inert2rotVLoop_eq ts rs vs

/-- Claim C10: a scalar `t_norm` is promoted to the one-element sequence
`[t_norm]`, and `inert2rotV` returns exactly one row computed from the
first rows of `rR` and `vI`, whatever else the batches contain. -/
theorem c10_inert2rotV_scalar_promotion (x : ℝ) (r v : Vec3)
    (rs vs : List Vec3) :
    inert2rotV (r :: rs) (v :: vs) (Sum.inl x) =
      some [inert2rotVRow x r v] := rfl

/-- A float that may be NaN: `none` is NaN, `some x` a finite value.  Used
only for the Rodrigues-alignment step of `body2geo`, where the code divides
by the norm of a cross product that can be zero; every division reached
there has a zero numerator whenever its divisor is zero, so IEEE yields NaN
exactly when the divisor is zero. -/
abbrev PR := Option ℝ

/-- NaN-propagating addition. -/
def padd : PR → PR → PR
  | some a, some b => some (a + b)
  | _, _ => none

/-- NaN-propagating multiplication (in IEEE, `0 * NaN = NaN`). -/
def pmul : PR → PR → PR
  | some a, some b => some (a * b)
  | _, _ => none

/-- NaN-propagating subtraction. -/
def psub : PR → PR → PR
  | some a, some b => some (a - b)
  | _, _ => none

/-- NaN-propagating negation. -/
def pneg : PR → PR
  | some a => some (-a)
  | none => none

/-- NaN-propagating division; a zero divisor yields NaN. -/
def pdiv : PR → PR → PR
  | some a, some b => if b = 0 then none else some (a / b)
  | _, _ => none

/-- `np.dot` of two length-3 vectors of possibly-NaN floats. -/
def pdot (a b : Fin 3 → PR) : PR :=
  padd (padd (pmul (a 0) (b 0)) (pmul (a 1) (b 1))) (pmul (a 2) (b 2))

/-- Matrix product of 3×3 matrices of possibly-NaN floats (`r_skew @ r_skew`
in `body2geo`). -/
def pmatMul (A B : Matrix (Fin 3) (Fin 3) PR) : Matrix (Fin 3) (Fin 3) PR :=
  Matrix.of fun i j =>
    padd (padd (pmul (A i 0) (B 0 j)) (pmul (A i 1) (B 1 j)))
      (pmul (A i 2) (B 2 j))

/-- `np.identity(3)` viewed in `PR`. -/
def pI : Matrix (Fin 3) (Fin 3) PR :=
  Matrix.of fun i j => if i = j then some 1 else some 0

/-- `tmp_rG = -icrs2gcrs(kernel[0,3].compute(currentTime.jd) * u.km,
currentTime)` of `body2geo`.  `kernel` abstracts the ephemeris lookup
`kernel[0,3].compute` (queried at the Julian date `t + mjd2jd`), and
`bridge` abstracts the astropy ICRS→GCRS transform performed by
`icrs2gcrs`. -/
def tmp_rG (kernel : ℝ → Vec3) (bridge : Vec3 → ℝ → Vec3) (t : ℝ) : Vec3 :=
  fun i => -bridge (kernel (t + mjd2jd)) t i

/-- `r_earth_bary_G` of `body2geo`: `tmp_rG` converted componentwise to
canonical units. -/
def r_earth_bary_G (kernel : ℝ → Vec3) (bridge : Vec3 → ℝ → Vec3) (t : ℝ) :
    Vec3 :=
  ![convertPos_to_canonical (tmp_rG kernel bridge t 0),
    convertPos_to_canonical (tmp_rG kernel bridge t 1),
    convertPos_to_canonical (tmp_rG kernel bridge t 2)]

/-- `mu_star = np.linalg.norm(r_earth_bary_G)` of `body2geo`. -/
def mu_star (kernel : ℝ → Vec3) (bridge : Vec3 → ℝ → Vec3) (t : ℝ) : ℝ :=
  norm3 (r_earth_bary_G kernel bridge t)

/-- `r_earth_bary_R = mu_star * np.array([-1, 0, 0])` of `body2geo`. -/
def r_earth_bary_R (kernel : ℝ → Vec3) (bridge : Vec3 → ℝ → Vec3) (t : ℝ) :
    Vec3 :=
  fun i => mu_star kernel bridge t * (![-1, 0, 0] : Vec3) i

/-- `r_earth_bary_B = rot(theta, 3).T @ r_earth_bary_R` of `body2geo`, with
`theta = convertTime_to_canonical(currentTime.value - equinox.value[0])`. -/
def r_earth_bary_B (kernel : ℝ → Vec3) (bridge : Vec3 → ℝ → Vec3)
    (t e0 : ℝ) : Vec3 :=
  np_dot (rot3 (convertTime_to_canonical (t - e0)))ᵀ
    (r_earth_bary_R kernel bridge t)

/-- `n_vec = np.cross(r_earth_bary_B, r_earth_bary_G)` of `body2geo`. -/
def n_vec (kernel : ℝ → Vec3) (bridge : Vec3 → ℝ → Vec3) (t e0 : ℝ) : Vec3 :=
  cross3 (r_earth_bary_B kernel bridge t e0) (r_earth_bary_G kernel bridge t)

/-- `n_hat = n_vec / np.linalg.norm(n_vec)` of `body2geo`; NaN when the
cross product is zero. -/
def n_hat (kernel : ℝ → Vec3) (bridge : Vec3 → ℝ → Vec3) (t e0 : ℝ)
    (i : Fin 3) : PR :=
  pdiv (some (n_vec kernel bridge t e0 i))
    (some (norm3 (n_vec kernel bridge t e0)))

/-- `r_sin = np.linalg.norm(n_vec) / mu_star**2` of `body2geo`. -/
def r_sin (kernel : ℝ → Vec3) (bridge : Vec3 → ℝ → Vec3) (t e0 : ℝ) : PR :=
  pdiv (some (norm3 (n_vec kernel bridge t e0)))
    (some (mu_star kernel bridge t ^ 2))

/-- `r_cos = np.dot(r_earth_bary_B/mu_star, r_earth_bary_G/mu_star)` of
`body2geo`. -/
def r_cos (kernel : ℝ → Vec3) (bridge : Vec3 → ℝ → Vec3) (t e0 : ℝ) : PR :=
  pdot
    (fun i => pdiv (some (r_earth_bary_B kernel bridge t e0 i))
      (some (mu_star kernel bridge t)))
    (fun i => pdiv (some (r_earth_bary_G kernel bridge t i))
      (some (mu_star kernel bridge t)))

/-- `r_skew`, the skew-symmetric cross-product matrix of `n_hat` in
`body2geo` (its diagonal is the literal float `0`, not a division). -/
def r_skew (kernel : ℝ → Vec3) (bridge : Vec3 → ℝ → Vec3) (t e0 : ℝ) :
    Matrix (Fin 3) (Fin 3) PR :=
  !![some 0, pneg (n_hat kernel bridge t e0 2), n_hat kernel bridge t e0 1;
     n_hat kernel bridge t e0 2, some 0, pneg (n_hat kernel bridge t e0 0);
     pneg (n_hat kernel bridge t e0 1), n_hat kernel bridge t e0 0, some 0]

/-- `C_B2G = np.identity(3) + r_skew*r_sin + r_skew@r_skew*(1 - r_cos)` of
`body2geo` (the unused local `r_theta = np.arctan2(r_sin, r_cos)` does not
feed this result and is omitted). -/
def C_B2G (kernel : ℝ → Vec3) (bridge : Vec3 → ℝ → Vec3) (t e0 : ℝ) :
    Matrix (Fin 3) (Fin 3) PR :=
  Matrix.of fun i j =>
    padd
      (padd (pI i j)
        (pmul (r_skew kernel bridge t e0 i j) (r_sin kernel bridge t e0)))
      (pmul (pmatMul (r_skew kernel bridge t e0) (r_skew kernel bridge t e0) i j)
        (psub (some 1) (r_cos kernel bridge t e0)))

/-- `body2geo(currentTime, kernel, equinox)`: the DCM from the Earth–Moon
perifocal frame to the geocentric frame.  `equinox.value[0]` raises
`IndexError` on an empty sequence (`none`); otherwise only the first
element is read. -/
def body2geo (kernel : ℝ → Vec3) (bridge : Vec3 → ℝ → Vec3) (t : ℝ)
    (equinox : List ℝ) : Option (Matrix (Fin 3) (Fin 3) PR) :=
  match equinox with
  | [] => none
  | e0 :: _ => some (C_B2G kernel bridge t e0)

/-- `body2rot(currentTime, equinox)`:
`theta = convertTime_to_canonical(currentTime.value - equinox.value[0])`,
returning `rot(theta, 3)` (the axis argument is the literal 3, so the call
always succeeds; see `rot_axis3`).  `equinox.value[0]` raises `IndexError`
on an empty sequence. -/
def body2rot (t : ℝ) (equinox : List ℝ) : Option (Matrix (Fin 3) (Fin 3) ℝ) :=
  match equinox with
  | [] => none
  | e0 :: _ => some (rot3 (convertTime_to_canonical (t - e0)))

/-- Claim C9: `body2rot` and `body2geo` read only `equinox.value[0]`, so two
nonempty equinox sequences with equal first elements yield identical DCMs
(same epoch and kernel). -/
theorem c9_equinox_first_element_only (kernel : ℝ → Vec3)
    (bridge : Vec3 → ℝ → Vec3) (t e0 : ℝ) (l1 l2 : List ℝ) :
    body2rot t (e0 :: l1) = body2rot t (e0 :: l2) ∧
      body2geo kernel bridge t (e0 :: l1) = body2geo kernel bridge t (e0 :: l2) :=
  ⟨rfl, rfl⟩

/-- Errors CPython raises in the position-transform wrappers. -/
inductive PyError where
  | typeError
  | nameError
  deriving DecidableEq

/-- The call `body2geo(currentTime)` made by `gcrs2inert` and `inert2gcrs`:
`body2geo` has three required positional parameters
`(currentTime, kernel, equinox)`, so CPython raises `TypeError` at the call
site, before the callee body runs. -/
def body2geoCall1 (t : ℝ) : Except PyError (Matrix (Fin 3) (Fin 3) PR) :=
  Except.error PyError.typeError

/-- The call `body2rot(currentTime)` made by `inert2rotP` and `rot2inertP`:
`body2rot` has two required positional parameters `(currentTime, equinox)`,
so CPython raises `TypeError` at the call site. -/
def body2rotCall1 (t : ℝ) : Except PyError (Matrix (Fin 3) (Fin 3) ℝ) :=
  Except.error PyError.typeError

/-- `gcrs2inert(pos, currentTime)`: `C_B2G = body2geo(currentTime)` (a
`TypeError`, see `body2geoCall1`); were it to succeed the body would return
`C_B2G.T @ pos`. -/
def gcrs2inert (pos : Vec3) (t : ℝ) : Except PyError (Fin 3 → PR) :=
  (body2geoCall1 t).bind fun C => Except.ok (fun i => pdot (Cᵀ i) (fun j => some (pos j)))

/-- `inert2gcrs(pos, currentTime)`: `C_B2G = body2geo(currentTime)` (a
`TypeError`); even if that call succeeded, the body then reads the never-
assigned local `C_G2B`, a `NameError`. -/
def inert2gcrs (pos : Vec3) (t : ℝ) : Except PyError (Fin 3 → PR) :=
  (body2geoCall1 t).bind fun _ => Except.error PyError.nameError

/-- `inert2rotP(pos, currentTime)`: `C_I2R = body2rot(currentTime)` (a
`TypeError`, see `body2rotCall1`); were it to succeed the body would return
`C_I2R @ pos`. -/
def inert2rotP (pos : Vec3) (t : ℝ) : Except PyError Vec3 :=
  (body2rotCall1 t).bind fun C => Except.ok (np_dot C pos)

/-- `rot2inertP(pos, currentTime)`: `C_I2R = body2rot(currentTime)` (a
`TypeError`); were it to succeed the body would return `C_I2R.T @ pos`. -/
def rot2inertP (pos : Vec3) (t : ℝ) : Except PyError Vec3 :=
  (body2rotCall1 t).bind fun C => Except.ok (np_dot Cᵀ pos)

/-- Claim C1 fails on the code: each of the four position transforms calls
`body2geo`/`body2rot` with one argument while those functions require three
resp. two, so every call — here at `pos = (1,0,0)`, `currentTime = 0` —
raises `TypeError` instead of returning a matrix-vector product. -/
theorem c1_position_transforms_always_raise :
    gcrs2inert ![1, 0, 0] 0 = Except.error PyError.typeError ∧
      inert2gcrs ![1, 0, 0] 0 = Except.error PyError.typeError ∧
        inert2rotP ![1, 0, 0] 0 = Except.error PyError.typeError ∧
          rot2inertP ![1, 0, 0] 0 = Except.error PyError.typeError :=
  ⟨rfl, rfl, rfl, rfl⟩

/-- Claim C6 fails on the code: the round trip
`rot2inertP(inert2rotP(v, epoch), epoch)` — here at `v = (2,3,5)`,
`epoch = 1` — dies with the `TypeError` raised inside `inert2rotP`, so the
transforms can never invert each other. -/
theorem c6_roundtrip_raises :
    (inert2rotP ![2, 3, 5] 1).bind (fun w => rot2inertP w 1) =
      Except.error PyError.typeError := rfl

theorem pmul_none_left (x : PR) : pmul none x = none := rfl

theorem pmul_none_right (x : PR) : pmul x none = none := by
  cases x <;> rfl

theorem padd_none_left (x : PR) : padd none x = none := rfl

theorem padd_none_right (x : PR) : padd x none = none := by
  cases x <;> rfl

theorem pneg_none : pneg none = none := rfl

theorem pdiv_zero_right (x : ℝ) : pdiv (some x) (some 0) = none := by
  simp [pdiv]

/-- If the cross product in `body2geo` vanishes, the division by its zero
norm poisons `n_hat` and the NaN reaches entry (0,1) of the assembled
DCM. -/
theorem C_B2G_nan_of_cross_zero (kernel : ℝ → Vec3)
    (bridge : Vec3 → ℝ → Vec3) (t e0 : ℝ)
    (h : n_vec kernel bridge t e0 = 0) :
    C_B2G kernel bridge t e0 0 1 = none := by
  have hnorm : norm3 (n_vec kernel bridge t e0) = 0 := by
    rw [h]
    simp [norm3]
  have hhat : ∀ i, n_hat kernel bridge t e0 i = none := by
    intro i
    rw [n_hat, hnorm]
    exact pdiv_zero_right _
  simp [C_B2G, pI, r_skew, pmatMul, hhat, pneg_none, pmul_none_left,
    pmul_none_right, padd_none_left, padd_none_right]

/-- Claim C2 amended: `body2geo` performs no degeneracy check.  Whenever the
cross product of `r_earth_bary_B` and `r_earth_bary_G` is zero, the
division `n_vec / np.linalg.norm(n_vec)` divides by zero, and the resulting
NaN propagates silently into the returned DCM (entry (0,1) shown here); the
call still succeeds, surfacing no computation error. -/
theorem c2_amended_nan_propagates (kernel : ℝ → Vec3)
    (bridge : Vec3 → ℝ → Vec3) (t e0 : ℝ) (rest : List ℝ)
    (h : cross3 (r_earth_bary_B kernel bridge t e0)
      (r_earth_bary_G kernel bridge t) = 0) :
    Option.map (fun M => M 0 1) (body2geo kernel bridge t (e0 :: rest)) =
      some none := by
  have hC : C_B2G kernel bridge t e0 0 1 = none :=
    C_B2G_nan_of_cross_zero kernel bridge t e0 h
  simp [body2geo, hC]

/-- An ephemeris stub putting the barycenter at `(DU, 0, 0)` km. -/
def exKernel : ℝ → Vec3 := fun _ => ![DU, 0, 0]

/-- A frame-bridge stub acting as the identity on positions. -/
def exBridge : Vec3 → ℝ → Vec3 := fun p _ => p

theorem ex_r_earth_bary_G :
    r_earth_bary_G exKernel exBridge 0 = ![-1, 0, 0] := by
  funext i
  fin_cases i <;>
    norm_num [r_earth_bary_G, tmp_rG, exKernel, exBridge,
      convertPos_to_canonical, DU]

theorem ex_mu_star : mu_star exKernel exBridge 0 = 1 := by
  show norm3 (r_earth_bary_G exKernel exBridge 0) = 1
  rw [ex_r_earth_bary_G]
  rw [show norm3 ![-1, 0, 0] =
      Real.sqrt (((-1 : ℝ)) ^ 2 + (0 : ℝ) ^ 2 + (0 : ℝ) ^ 2) from rfl]
  norm_num

theorem ex_r_earth_bary_B :
    r_earth_bary_B exKernel exBridge 0 0 = ![-1, 0, 0] := by
  funext i
  fin_cases i <;>
    simp [r_earth_bary_B, r_earth_bary_R, np_dot, rot3,
      Matrix.transpose_apply, ex_mu_star, convertTime_to_canonical]

/-- At epoch 0 with equinox origin 0, the stub geometry makes
`r_earth_bary_B` and `r_earth_bary_G` parallel: the cross product is
zero. -/
theorem ex_cross_zero :
    cross3 (r_earth_bary_B exKernel exBridge 0 0)
      (r_earth_bary_G exKernel exBridge 0) = 0 := by
  rw [ex_r_earth_bary_B, ex_r_earth_bary_G]
  funext i
  fin_cases i <;> norm_num [cross3]

/-- Counterexample to claim C2: at the degenerate (parallel) configuration
produced by `exKernel`/`exBridge` at epoch 0, `body2geo` raises no error —
it returns a DCM — and that DCM carries NaN (entry (0,1)). -/
theorem c2_counterexample_silent_nan :
    body2geo exKernel exBridge 0 [0] ≠ none ∧
      Option.map (fun M => M 0 1) (body2geo exKernel exBridge 0 [0]) =
        some none := by
  constructor
  · simp [body2geo]
  · have hC : C_B2G exKernel exBridge 0 0 0 1 = none :=
      C_B2G_nan_of_cross_zero exKernel exBridge 0 0 ex_cross_zero
    simp [body2geo, hC]

/-- Witness for the amended C2 at the concrete degenerate configuration. -/
theorem c2_amended_nan_propagates_witness :
    cross3 (r_earth_bary_B exKernel exBridge 0 0)
        (r_earth_bary_G exKernel exBridge 0) = 0 ∧
      Option.map (fun M => M 0 1) (body2geo exKernel exBridge 0 [0]) =
        some none :=
  ⟨ex_cross_zero,
    c2_amended_nan_propagates exKernel exBridge 0 0 [] ex_cross_zero⟩
